import Mathlib

/-!
# A model of `fork.go` (package forkprocess)

Shallow embedding of the single source file of the repository. The package
holds spawn configuration (three stream handles, uid/gid, a working
directory) and exposes `Exec` (spawn through `os.StartProcess`, optionally
detaching at once) and `Release` (drop the in-process bookkeeping of the
spawned child).

Modelling decisions, all traced to the source or to the documented behaviour
of the Go standard library on Unix (the package is Unix-only: it uses
`syscall.Credential` and `Setsid`):

* `os.File` handles are opaque tokens (`File`, a wrapped descriptor number);
  the launcher only copies them into the child's descriptor table.
* `os.Process` is a record holding its `Pid`.  `os.Process.Release` on Unix
  marks the record released (`Pid := -1`) and always returns `nil`; we model
  it as `Process.Release`, returning the updated record and `none`.
* `os.StartProcess` is an external OS primitive.  `Exec` builds its argument
  (`StartProcessCall`: name, argv and the `os.ProcAttr` value assembled from
  the stored fields) and the outcome of the primitive is abstracted by an
  oracle `startProcess : StartProcessCall → Except Err Process`; on error the
  primitive yields `nil` for the process value, which the Go statement
  `f.process, err = os.StartProcess(...)` writes into the field.
* `os.Environ()` at the moment of the call is the `environ` argument.
* Go's `ForkProcess.Release` has a value receiver: the launcher struct the
  caller holds is never written to.  The `*os.Process` pointer is shared
  between the copy and the original, so the mutation performed by
  `p.Release()` on the pointed-to record is visible to the caller; the
  `process` field itself is not.  We model the method as returning the
  caller-visible launcher state: same fields, with the pointed-to process
  record updated.
-/

namespace ForkProc

/-- Spawn/release errors are opaque values surfaced verbatim; a string
stands for the Go `error` value. -/
abbrev Err := String

/-- An `os.File` stream handle, opaque to the launcher. -/
structure File where
  fd : Nat
deriving DecidableEq

/-- An `os.Process` record. On Unix the only observable effect of
`Release` on it is `Pid` becoming `-1`. -/
structure Process where
  pid : Int
deriving DecidableEq

/-- `os.Process.Release` on Unix: marks the record released (`Pid := -1`),
removes the finalizer and always returns `nil`. -/
def Process.Release (p : Process) : Process × Option Err :=
  ({ p with pid := -1 }, none)

/-- `syscall.Credential` as built in `Exec` (fork.go lines 87-92). -/
structure Credential where
  uid : Nat
  gid : Nat
  groups : List Nat
  noSetGroups : Bool
deriving DecidableEq

/-- The part of `syscall.SysProcAttr` that `Exec` sets (fork.go lines 94-97). -/
structure SysProcAttr where
  credential : Credential
  setsid : Bool
deriving DecidableEq

/-- `os.ProcAttr` as built in `Exec` (fork.go lines 98-107). -/
structure ProcAttr where
  dir : String
  env : List String
  files : List File
  sys : SysProcAttr
deriving DecidableEq

/-- The full argument package `Exec` hands to `os.StartProcess`
(fork.go line 109). -/
structure StartProcessCall where
  name : String
  argv : List String
  attr : ProcAttr
deriving DecidableEq

/-- The `ForkProcess` struct (fork.go lines 49-58). -/
structure ForkProcess where
  stdin : File
  stdout : File
  stderr : File
  uid : Nat
  gid : Nat
  execPath : String
  process : Option Process
deriving DecidableEq

/-- `NewForkProcess` (fork.go lines 69-78): plain assembly, `process`
starts out nil. -/
def NewForkProcess (stdin stdout stderr : File) (uid gid : Nat)
    (execPath : String) : ForkProcess :=
  { stdin := stdin, stdout := stdout, stderr := stderr, uid := uid,
    gid := gid, execPath := execPath, process := none }

/-- The credential, attributes and argument vector `Exec` passes to
`os.StartProcess`, assembled exactly as in fork.go lines 87-109:
credential from the stored uid/gid with `Groups: nil, NoSetGroups: true`;
attributes with `Dir` = the stored `execPath`, `Env` = `os.Environ()`
(the `environ` argument), `Files` = the three stored handles in order,
and `Setsid: true`. -/
def ForkProcess.execCall (f : ForkProcess) (processName : String)
    (args : List String) (environ : List String) : StartProcessCall :=
  let cred : Credential :=
    { uid := f.uid, gid := f.gid, groups := [], noSetGroups := true }
  let sysproc : SysProcAttr := { credential := cred, setsid := true }
  let attr : ProcAttr :=
    { dir := f.execPath, env := environ,
      files := [f.stdin, f.stdout, f.stderr], sys := sysproc }
  { name := processName, argv := args, attr := attr }

/-- `ForkProcess.Exec` (fork.go lines 86-122), pointer receiver.  The
statement `f.process, err = os.StartProcess(...)` writes the primitive's
process result into the field in both outcomes: the new handle on success,
`nil` on failure.  If `release` is true the handle is released at once,
the field is set back to nil, and the release error (always nil on Unix)
is surfaced.  Returns the caller-visible launcher together with the
returned Go error. -/
def ForkProcess.Exec (f : ForkProcess) (release : Bool) (processName : String)
    (args : List String) (environ : List String)
    (startProcess : StartProcessCall → Except Err Process) :
    ForkProcess × Option Err :=
  match startProcess (f.execCall processName args environ) with
  | .error e => ({ f with process := none }, some e)
  | .ok p =>
    let f1 : ForkProcess := { f with process := some p }
    if release then
      let r := p.Release
      let f2 : ForkProcess := { f1 with process := none }
      match r.2 with
      | some e => (f2, some e)
      | none => (f2, none)
    else
      (f1, none)

/-- `ForkProcess.Release` (fork.go lines 126-131), value receiver: the
launcher's fields are never assigned; if a process record is tracked its
`Release` is invoked (mutating the shared record through the pointer) and
its error returned, otherwise nil.  Returns the caller-visible launcher
together with the returned Go error. -/
def ForkProcess.Release (f : ForkProcess) : ForkProcess × Option Err :=
  match f.process with
  | some p =>
    let r := p.Release
    ({ f with process := some r.1 }, r.2)
  | none => (f, none)

/-- One call a client can make on a launcher; the `exec` constructor
carries the oracle standing for `os.StartProcess`. -/
inductive Call where
  | exec (release : Bool) (processName : String) (args : List String)
      (environ : List String)
      (startProcess : StartProcessCall → Except Err Process)
  | release

/-- The launcher state after one call. -/
def step (f : ForkProcess) : Call → ForkProcess
  | .exec r n a env sp => (f.Exec r n a env sp).1
  | .release => (f.Release).1

/-- The launcher state after a sequence of calls. -/
def run (f : ForkProcess) : List Call → ForkProcess
  | [] => f
  | c :: cs => run (step f c) cs

/-- The spec's bookkeeping bit for the invariant of §3, computed from the
actual outcome of each call: after an `Exec` whose spawn succeeded the
handle counts as live unless the same call's detach path released it;
after a failed `Exec` it is not live; an explicit `Release` always ends
liveness. -/
def specLiveAfter (f : ForkProcess) (_b : Bool) : Call → Bool
  | .exec r n a env sp =>
    match sp (f.execCall n a env) with
    | .ok _ => !r
    | .error _ => false
  | .release => false

/-- The bookkeeping bit that the code actually maintains: an explicit
`Release` leaves liveness unchanged (the value receiver never clears the
field); only `Exec` itself rewrites it. -/
def codeLiveAfter (f : ForkProcess) (b : Bool) : Call → Bool
  | .exec r n a env sp =>
    match sp (f.execCall n a env) with
    | .ok _ => !r
    | .error _ => false
  | .release => b

/-- Run a call sequence while threading a bookkeeping bit computed by `g`
alongside the launcher state. -/
def runAnnot (g : ForkProcess → Bool → Call → Bool) :
    ForkProcess × Bool → List Call → ForkProcess × Bool
  | s, [] => s
  | (f, b), c :: cs => runAnnot g (step f c, g f b c) cs

/-- Two launchers agree on every configuration field (everything except
the `process` handle field). -/
def sameConfig (g f : ForkProcess) : Prop :=
  g.stdin = f.stdin ∧ g.stdout = f.stdout ∧ g.stderr = f.stderr ∧
  g.uid = f.uid ∧ g.gid = f.gid ∧ g.execPath = f.execPath

/-- A concrete freshly-constructed launcher, for concrete evaluations. -/
def sampleFork : ForkProcess :=
  NewForkProcess ⟨0⟩ ⟨1⟩ ⟨2⟩ 1000 1000 "/"

/-- The same launcher while it tracks a live process record. -/
def trackingFork : ForkProcess :=
  { sampleFork with process := some ⟨7⟩ }

/-- An OS oracle whose spawn always succeeds with the record `p`. -/
def okOracle (p : Process) : StartProcessCall → Except Err Process :=
  fun _ => .ok p

/-- An OS oracle whose spawn always fails with the error `e`. -/
def failOracle (e : Err) : StartProcessCall → Except Err Process :=
  fun _ => .error e

/-- Claim C8: in every `Exec` call the credential handed to the OS
process-creation primitive carries exactly the stored uid and gid, an
empty supplementary group list and `NoSetGroups: true`, so the child runs
with exactly the given primary group. -/
theorem execCall_credential (f : ForkProcess) (n : String)
    (a env : List String) :
    (f.execCall n a env).attr.sys.credential
      = { uid := f.uid, gid := f.gid, groups := [], noSetGroups := true } :=
  rfl

/-- Claim C9: in every `Exec` call the process attributes handed to the OS
primitive have the stored working directory, the inherited environment
passed through verbatim, exactly the three stored stream handles in the
fixed order stdin, stdout, stderr, and a request for a new session. -/
theorem execCall_attr (f : ForkProcess) (n : String) (a env : List String) :
    (f.execCall n a env).attr.dir = f.execPath ∧
    (f.execCall n a env).attr.env = env ∧
    (f.execCall n a env).attr.files = [f.stdin, f.stdout, f.stderr] ∧
    (f.execCall n a env).attr.files.length = 3 ∧
    (f.execCall n a env).attr.sys.setsid = true :=
  ⟨rfl, rfl, rfl, rfl, rfl⟩

/-- Claim C10: neither `Exec` (whatever the spawn outcome) nor `Release`
changes the configuration fields stdin, stdout, stderr, uid, gid or
execPath; only the `process` handle field is ever rewritten. -/
theorem exec_release_frame (f : ForkProcess) (r : Bool) (n : String)
    (a env : List String) (sp : StartProcessCall → Except Err Process) :
    sameConfig ((f.Exec r n a env sp).1) f ∧
    sameConfig ((f.Release).1) f := by
  constructor
  · cases hsp : sp (f.execCall n a env) <;> cases r <;>
      simp [sameConfig, ForkProcess.Exec, hsp, Process.Release]
  · cases hp : f.process <;>
      simp [sameConfig, ForkProcess.Release, hp, Process.Release]

/-- Claim C5: when no process record is tracked, `Release` leaves the
launcher untouched and returns nil. -/
theorem release_no_process_noop (f : ForkProcess) (h : f.process = none) :
    f.Release = (f, none) := by
  simp [ForkProcess.Release, h]

/-- Witness for `release_no_process_noop` at a concrete fresh launcher. -/
theorem release_no_process_noop_witness :
    sampleFork.process = none ∧ sampleFork.Release = (sampleFork, none) :=
  ⟨rfl, release_no_process_noop sampleFork rfl⟩

/-- Claim C4: after one successful `Exec` with detach = false, calling
`Release` twice in a row returns nil both times, and the second call is a
no-op: it leaves the launcher state exactly as the first call left it. -/
theorem release_twice_nil_noop (f : ForkProcess) (n : String)
    (a env : List String) (sp : StartProcessCall → Except Err Process)
    (p : Process) (h : sp (f.execCall n a env) = .ok p) :
    ((f.Exec false n a env sp).1.Release).2 = none ∧
    (((f.Exec false n a env sp).1.Release).1.Release).2 = none ∧
    (((f.Exec false n a env sp).1.Release).1.Release).1
      = ((f.Exec false n a env sp).1.Release).1 := by
  cases f
  simp [ForkProcess.Exec, h, ForkProcess.Release, Process.Release]

/-- Witness for `release_twice_nil_noop` at a concrete launcher and spawn
outcome. -/
theorem release_twice_nil_noop_witness :
    (okOracle ⟨7⟩ (sampleFork.execCall "/bin/sleep"
        ["/bin/sleep", "60"] ["HOME=/root"]) = .ok ⟨7⟩) ∧
    ((sampleFork.Exec false "/bin/sleep" ["/bin/sleep", "60"] ["HOME=/root"]
        (okOracle ⟨7⟩)).1.Release).2 = none ∧
    (((sampleFork.Exec false "/bin/sleep" ["/bin/sleep", "60"] ["HOME=/root"]
        (okOracle ⟨7⟩)).1.Release).1.Release).2 = none ∧
    (((sampleFork.Exec false "/bin/sleep" ["/bin/sleep", "60"] ["HOME=/root"]
        (okOracle ⟨7⟩)).1.Release).1.Release).1
      = ((sampleFork.Exec false "/bin/sleep" ["/bin/sleep", "60"] ["HOME=/root"]
        (okOracle ⟨7⟩)).1.Release).1 := by
  refine ⟨rfl, ?_⟩
  exact release_twice_nil_noop sampleFork "/bin/sleep" ["/bin/sleep", "60"]
    ["HOME=/root"] (okOracle ⟨7⟩) ⟨7⟩ rfl

/-- Claim C6: a detaching `Exec` whose spawn succeeds invokes the handle's
release operation, clears the process field back to absent (before the
error check, so even when the release operation errors), and surfaces the
release operation's result to the caller. -/
theorem exec_detach_clears_and_surfaces (f : ForkProcess) (n : String)
    (a env : List String) (sp : StartProcessCall → Except Err Process)
    (p : Process) (h : sp (f.execCall n a env) = .ok p) :
    (f.Exec true n a env sp).1.process = none ∧
    (f.Exec true n a env sp).2 = (p.Release).2 := by
  simp [ForkProcess.Exec, h, Process.Release]

/-- Witness for `exec_detach_clears_and_surfaces` at a concrete launcher
and spawn outcome. -/
theorem exec_detach_clears_and_surfaces_witness :
    (okOracle ⟨7⟩ (sampleFork.execCall "/bin/sleep"
        ["/bin/sleep", "60"] []) = .ok ⟨7⟩) ∧
    (sampleFork.Exec true "/bin/sleep" ["/bin/sleep", "60"] []
        (okOracle ⟨7⟩)).1.process = none ∧
    (sampleFork.Exec true "/bin/sleep" ["/bin/sleep", "60"] []
        (okOracle ⟨7⟩)).2 = ((⟨7⟩ : Process).Release).2 := by
  refine ⟨rfl, ?_⟩
  exact exec_detach_clears_and_surfaces sampleFork "/bin/sleep"
    ["/bin/sleep", "60"] [] (okOracle ⟨7⟩) ⟨7⟩ rfl

/-- Claim C2 as stated is false: when the spawn fails while a previous
process is still tracked, the Go statement
`f.process, err = os.StartProcess(...)` overwrites the tracked handle with
the primitive's nil result, so `liveProcess` is not left exactly as it was
before the call. -/
theorem exec_fail_overwrites_live_handle :
    ¬ (∀ (f : ForkProcess) (r : Bool) (n : String) (a env : List String)
        (sp : StartProcessCall → Except Err Process) (e : Err),
        sp (f.execCall n a env) = .error e →
        (f.Exec r n a env sp).1.process = f.process) := by
  intro h
  have h2 := h trackingFork false "/bin/missing" [] [] (failOracle "boom")
    "boom" rfl
  exact absurd h2 (by decide)

/-- Claim C2 (amended): when the OS primitive fails, `Exec` returns the
underlying error verbatim and afterwards the process field holds the
primitive's nil result: no partial or invalid handle is stored, the state
is unchanged when no process was tracked, but a previously tracked handle
is dropped. -/
theorem exec_spawn_fail (f : ForkProcess) (r : Bool) (n : String)
    (a env : List String) (sp : StartProcessCall → Except Err Process)
    (e : Err) (h : sp (f.execCall n a env) = .error e) :
    f.Exec r n a env sp = ({ f with process := none }, some e) := by
  simp [ForkProcess.Exec, h]

/-- Witness for `exec_spawn_fail` at a concrete launcher and failing
spawn. -/
theorem exec_spawn_fail_witness :
    (failOracle "boom" (sampleFork.execCall "/bin/missing" [] []) =
      .error "boom") ∧
    sampleFork.Exec false "/bin/missing" [] [] (failOracle "boom")
      = ({ sampleFork with process := none }, some "boom") :=
  ⟨rfl, exec_spawn_fail sampleFork false "/bin/missing" [] []
    (failOracle "boom") "boom" rfl⟩

/-- Claim C3 as stated is false: `Release` has a value receiver and never
assigns the process field, so after a call to `Release` on a launcher that
tracks a process the field is still present. -/
theorem release_leaves_process_present :
    ¬ (∀ (f : ForkProcess), f.process.isSome = true →
        (f.Release).1.process = none) := by
  intro h
  have h2 := h trackingFork (by decide)
  exact absurd h2 (by decide)

/-- Claim C3 (amended): a call to `Release` never changes whether
`liveProcess` is present — when a process is tracked the handle's release
operation is invoked (marking the shared record released), but the field
keeps its handle; the call returns nil. -/
theorem release_preserves_presence (f : ForkProcess) :
    (f.Release).1.process.isSome = f.process.isSome ∧
    (f.Release).2 = none := by
  cases hp : f.process <;> simp [ForkProcess.Release, hp, Process.Release]

/-- Claim C7 as stated is false: after a successful non-detaching `Exec`,
the following explicit `Release` does not clear `liveProcess` to absent. -/
theorem release_after_exec_keeps_handle :
    ¬ (∀ (f : ForkProcess) (n : String) (a env : List String)
        (sp : StartProcessCall → Except Err Process) (p : Process),
        sp (f.execCall n a env) = .ok p →
        (f.Exec false n a env sp).2 = none ∧
        (f.Exec false n a env sp).1.process = some p ∧
        ((f.Exec false n a env sp).1.Release).1.process = none) := by
  intro h
  have h2 := (h sampleFork "/bin/sleep" [] [] (okOracle ⟨7⟩) ⟨7⟩ rfl).2.2
  exact absurd h2 (by decide)

/-- Claim C7 (amended): a successful non-detaching `Exec` returns nil with
the new handle stored in the process field; a following explicit `Release`
invokes the handle's release operation and returns nil, but leaves the
field present, now holding the released record. -/
theorem exec_tracked_then_release (f : ForkProcess) (n : String)
    (a env : List String) (sp : StartProcessCall → Except Err Process)
    (p : Process) (h : sp (f.execCall n a env) = .ok p) :
    (f.Exec false n a env sp).2 = none ∧
    (f.Exec false n a env sp).1.process = some p ∧
    ((f.Exec false n a env sp).1.Release).1.process = some (p.Release).1 ∧
    ((f.Exec false n a env sp).1.Release).2 = none := by
  simp [ForkProcess.Exec, h, ForkProcess.Release, Process.Release]

/-- Witness for `exec_tracked_then_release` at a concrete launcher and
spawn outcome. -/
theorem exec_tracked_then_release_witness :
    (okOracle ⟨7⟩ (sampleFork.execCall "/bin/sleep" ["/bin/sleep", "60"]
      []) = .ok ⟨7⟩) ∧
    (sampleFork.Exec false "/bin/sleep" ["/bin/sleep", "60"] []
      (okOracle ⟨7⟩)).2 = none ∧
    (sampleFork.Exec false "/bin/sleep" ["/bin/sleep", "60"] []
      (okOracle ⟨7⟩)).1.process = some ⟨7⟩ ∧
    ((sampleFork.Exec false "/bin/sleep" ["/bin/sleep", "60"] []
      (okOracle ⟨7⟩)).1.Release).1.process = some ((⟨7⟩ : Process).Release).1 ∧
    ((sampleFork.Exec false "/bin/sleep" ["/bin/sleep", "60"] []
      (okOracle ⟨7⟩)).1.Release).2 = none := by
  refine ⟨rfl, ?_⟩
  exact exec_tracked_then_release sampleFork "/bin/sleep"
    ["/bin/sleep", "60"] [] (okOracle ⟨7⟩) ⟨7⟩ rfl

/-- One step preserves the correspondence between the presence of the
process field and the bookkeeping bit the code actually maintains. -/
lemma step_isSome (f : ForkProcess) (c : Call) :
    (step f c).process.isSome = codeLiveAfter f f.process.isSome c := by
  cases c with
  | exec r n a env sp =>
    cases hsp : sp (f.execCall n a env) <;> cases r <;>
      simp [step, ForkProcess.Exec, codeLiveAfter, hsp, Process.Release]
  | release =>
    cases hp : f.process <;>
      simp [step, ForkProcess.Release, codeLiveAfter, hp, Process.Release]

/-- Along any run, the presence of the process field equals the fold of
`codeLiveAfter` started from the initial presence. -/
lemma run_isSome (f : ForkProcess) (trace : List Call) :
    (run f trace).process.isSome
      = (runAnnot codeLiveAfter (f, f.process.isSome) trace).2 := by
  induction trace generalizing f with
  | nil => rfl
  | cons c cs ih =>
    simp only [run, runAnnot]
    rw [← step_isSome f c]
    exact ih (step f c)

/-- Claim C1 as stated is false: the spec's invariant says the handle is
absent once the most recent successful `Exec` has been released, but an
explicit `Release` (value receiver, no assignment to the field) does not
clear it: after `Exec` success followed by `Release`, the field is still
present while the spec bit says released. -/
theorem specLive_invariant_fails :
    ¬ (∀ (si so se : File) (u g : Nat) (d : String) (trace : List Call),
        (run (NewForkProcess si so se u g d) trace).process.isSome
          = (runAnnot specLiveAfter
              (NewForkProcess si so se u g d, false) trace).2) := by
  intro h
  have h2 := h ⟨0⟩ ⟨1⟩ ⟨2⟩ 1000 1000 "/"
    [Call.exec false "/bin/sleep" ["/bin/sleep", "60"] [] (okOracle ⟨7⟩),
     Call.release]
  exact absurd h2 (by decide)

/-- Claim C1 (amended): starting from a freshly constructed launcher, after
any sequence of `Exec` and `Release` calls the process field is present iff
the most recent `Exec` call succeeded and was not detached by `Exec`'s own
detach path (`codeLiveAfter`: a successful `Exec` sets liveness to the
negation of its detach flag, a failed `Exec` clears it, and an explicit
`Release` leaves it unchanged — the field is never cleared by `Release`). -/
theorem live_iff_last_exec_untracked (si so se : File) (u g : Nat)
    (d : String) (trace : List Call) :
    (run (NewForkProcess si so se u g d) trace).process.isSome
      = (runAnnot codeLiveAfter
          (NewForkProcess si so se u g d, false) trace).2 :=
  run_isSome (NewForkProcess si so se u g d) trace

end ForkProc
